import Mathlib

/-!
Verification development for the github-stars-mcp-server repository.

Python strings are modelled as lists of characters (`PyStr`), fallible
Python code as `Except`/`Option` values, and the GitHub GraphQL transport
as explicit oracle parameters.  Each definition is a direct translation of
the corresponding Python function named in its doc comment.
-/

namespace GithubStarsMcp

/-- Python `str` modelled as a list of characters. -/
abbrev PyStr := List Char

/-- Characters stripped by Python `str.strip()` (ASCII whitespace). -/
def isPySpace (c : Char) : Bool :=
  c = ' ' || c = '\t' || c = '\n' || c = '\r' || c = '\x0b' || c = '\x0c'

/-- Python `s.strip()`: remove leading and trailing whitespace. -/
def pyStrip (s : PyStr) : PyStr :=
  ((s.dropWhile isPySpace).reverse.dropWhile isPySpace).reverse

/-- Python `'--' in s` specialised to two hyphens. -/
def hasDoubleHyphen : PyStr → Bool
  | [] => false
  | [_] => false
  | a :: b :: t => (a = '-' && b = '-') || hasDoubleHyphen (b :: t)

/-- Membership in the character set literal of `validators.py` line 38:
alphanumeric ASCII characters and the hyphen. -/
def isUsernameChar (c : Char) : Bool :=
  ('a' ≤ c && c ≤ 'z') || ('A' ≤ c && c ≤ 'Z') || ('0' ≤ c && c ≤ '9') || c = '-'

/-- Translation of `common/validators.py::validate_github_username`
(lines 6-42).  Returns the stripped username, or the `ValidationError`
message raised. -/
def validate_github_username (s : PyStr) : Except PyStr PyStr :=
  if s = [] then
    .error "Username must be a non-empty string".toList
  else
    let u := pyStrip s
    if u = [] then
      .error "Username cannot be empty or whitespace".toList
    else if 39 < u.length then
      .error "Username cannot be longer than 39 characters".toList
    else if u.head? = some '-' || u.getLast? = some '-' then
      .error "Username cannot start or end with hyphens".toList
    else if hasDoubleHyphen u then
      .error "Username cannot contain consecutive hyphens".toList
    else if !u.all isUsernameChar then
      .error "Username can only contain alphanumeric characters and hyphens".toList
    else
      .ok u

/-- Username validity as the specification words it: non-empty, at most 39
characters, only alphanumerics and hyphens, no leading or trailing hyphen,
no consecutive hyphens.  Stated about the (already stripped) string. -/
def SpecValidUsername (u : PyStr) : Prop :=
  u ≠ [] ∧ u.length ≤ 39 ∧ (∀ c ∈ u, isUsernameChar c) ∧
    u.head? ≠ some '-' ∧ u.getLast? ≠ some '-' ∧ hasDoubleHyphen u = false

instance (u : PyStr) : Decidable (SpecValidUsername u) := by
  unfold SpecValidUsername; infer_instance

/-- Python `s.split(sep)` (no maxsplit): empty segments are kept. -/
def pySplitAll (sep : Char) : PyStr → List PyStr
  | [] => [[]]
  | c :: t =>
    let r := pySplitAll sep t
    if c = sep then [] :: r else (c :: r.headD []) :: r.tail

/-- Python `s.split(sep, 1)`: at most one split, at the first separator. -/
def pySplit1 (sep : Char) : PyStr → List PyStr
  | [] => [[]]
  | c :: t =>
    if c = sep then [[], t]
    else
      match pySplit1 sep t with
      | [x] => [c :: x]
      | x :: r => (c :: x) :: r
      | [] => [[c]]

instance {ε α : Type} [DecidableEq ε] [DecidableEq α] : DecidableEq (Except ε α) :=
  fun a b =>
    match a, b with
    | .error e, .error f => decidable_of_iff (e = f) (by simp)
    | .error _, .ok _ => isFalse (by simp)
    | .ok _, .error _ => isFalse (by simp)
    | .ok x, .ok y => decidable_of_iff (x = y) (by simp)

/-- Python exceptions relevant to the embedded code. -/
inductive PyError where
  | nameError (n : PyStr)
  | valueError (msg : PyStr)
  | pydanticMissingField (fieldName : PyStr)
deriving DecidableEq

/-- Errors raised out of the MCP tool functions
(`exceptions.py::ValidationError` / `exceptions.py::GitHubAPIError`). -/
inductive ToolError where
  | validationError (msg : PyStr)
  | githubAPIError (msg : PyStr)
deriving DecidableEq

/-- Translation of `tools/batch_repo_details.py::validate_repository_names`,
per-item loop (lines 26-38).  On success returns the stripped names. -/
def validateNamesLoop : List PyStr → Except PyStr (List PyStr)
  | [] => .ok []
  | n :: t =>
    let m := pyStrip n
    if m = [] then .error "Repository name cannot be empty".toList
    else if '/' ∉ m then
      .error ("Invalid repository name format: ".toList ++ m ++
        ". Expected format: owner/repo".toList)
    else
      match pySplitAll '/' m with
      | [a, b] =>
        if a.isEmpty || b.isEmpty then
          .error ("Invalid repository name format: ".toList ++ m ++
            ". Expected format: owner/repo".toList)
        else (validateNamesLoop t).map (fun v => m :: v)
      | _ =>
        .error ("Invalid repository name format: ".toList ++ m ++
          ". Expected format: owner/repo".toList)

/-- Translation of `tools/batch_repo_details.py::validate_repository_names`
(lines 17-40).  Note the batch-size ceiling in the source is 50. -/
def validate_repository_names (names : List PyStr) : Except PyStr (List PyStr) :=
  if names = [] then .error "Repository names list cannot be empty".toList
  else if 50 < names.length then
    .error "Cannot process more than 50 repositories at once".toList
  else validateNamesLoop names

/-- An identifier splits on `/` into exactly two non-empty segments. -/
def isOwnerRepoShaped (m : PyStr) : Bool :=
  match pySplitAll '/' m with
  | [a, b] => !a.isEmpty && !b.isEmpty
  | _ => false

/-- Result shape of `GitHubClient.get_repository_readme` (a dict with the
four keys `content`, `size`, `has_readme`, `error`). -/
structure ReadmeResult where
  content : Option PyStr
  size : Option Int
  has_readme : Bool
  error : Option PyStr
deriving DecidableEq

/-- The `models.py::RepositoryDetails` pydantic model: its only declared
field is `readme_content` (extra constructor keywords are ignored by
pydantic). -/
structure RepositoryDetails where
  readme_content : Option PyStr
deriving DecidableEq

/-- The `models.py::BatchRepositoryDetailsResponse` pydantic model: its only
declared field is `data`, a mapping from repository name to details, and it
is required (no default). -/
structure BatchRepositoryDetailsResponse where
  data : List (PyStr × RepositoryDetails)
deriving DecidableEq

/-- Evaluation of line 95 of `tools/batch_repo_details.py`,
`Repository.model_validate(repo_data)`: the name `Repository` is not
imported in that module (only `BatchRepositoryDetailsResponse` and
`RepositoryDetails` are), so the lookup raises `NameError` and no value is
ever produced. -/
def repositoryModelValidate : Except PyError Empty :=
  .error (.nameError "Repository".toList)

/-- Translation of
`tools/batch_repo_details.py::fetch_single_repository_details`
(lines 43-108).  The oracle stands for
`github_client.get_repository_readme(owner, name)`; the second component of
the result is the list of readme calls issued.  Every path returning from
the `try` body passes through `Repository.model_validate` (line 95), whose
`NameError` is caught by the `except Exception` at line 106, so the
function returns `None` for every item. -/
def fetch_single_repository_details
    (oracle : PyStr → PyStr → Except PyStr ReadmeResult) (repoName : PyStr) :
    Option RepositoryDetails × List (PyStr × PyStr) :=
  match pySplit1 '/' repoName with
  | [owner, nm] =>
    let _readmeOutcome := oracle owner nm
    match repositoryModelValidate with
    | .error _ => (none, [(owner, nm)])
    | .ok e => e.elim
  | _ => (none, [])

/-- Python `list(dict.fromkeys(l))`: deduplicate keeping first occurrences
in order. -/
def dedupFirst (l : List PyStr) : List PyStr :=
  l.foldl (fun acc x => if x ∈ acc then acc else acc ++ [x]) []

/-- Keyword arguments passed to the `BatchRepositoryDetailsResponse`
constructor at lines 176-181 of `tools/batch_repo_details.py`. -/
structure BatchResponseArgs where
  repository_details : List RepositoryDetails
  total_count : Nat
  success_count : Nat
  error_count : Nat
deriving DecidableEq

/-- Translation of the result-processing loop of
`tools/batch_repo_details.py::get_batch_repo_details` (lines 161-181):
`None` results are counted as failures, all others are collected in order.
(The `isinstance(result, Exception)` branch is unreachable because
`fetch_single_repository_details` catches every exception.) -/
def processBatchResults (uniqueNames : List PyStr)
    (results : List (Option RepositoryDetails)) : BatchResponseArgs :=
  let successful := results.filterMap id
  let failed := (uniqueNames.zip results).filterMap
    (fun p => if p.2.isNone then some p.1 else none)
  { repository_details := successful
    total_count := uniqueNames.length
    success_count := successful.length
    error_count := failed.length }

/-- Evaluation of the constructor call
`BatchRepositoryDetailsResponse(repository_details=..., total_count=...,
success_count=..., error_count=...)` at lines 176-181: the model declares a
single required field `data` which is not among the keywords, so pydantic
raises a missing-field validation error. -/
def mkBatchRepositoryDetailsResponse (args : BatchResponseArgs) :
    Except PyError BatchRepositoryDetailsResponse :=
  .error (.pydanticMissingField ("data".toList ++ (ignoreArgs args)))
where
  /-- The remaining keyword arguments play no role in the raised error. -/
  ignoreArgs : BatchResponseArgs → PyStr := fun _ => []

/-- Translation of `tools/batch_repo_details.py::get_batch_repo_details`
(lines 112-192).  The second component of the result is the trace of
readme calls issued to the data source. -/
def get_batch_repo_details (oracle : PyStr → PyStr → Except PyStr ReadmeResult)
    (repository_names : List PyStr) (max_concurrent : Int) :
    Except ToolError BatchRepositoryDetailsResponse × List (PyStr × PyStr) :=
  match validate_repository_names repository_names with
  | .error e => (.error (.validationError e), [])
  | .ok validated_names =>
    if max_concurrent < 1 ∨ 20 < max_concurrent then
      (.error (.validationError "max_concurrent must be between 1-20".toList), [])
    else
      let unique_names := dedupFirst validated_names
      let fetched := unique_names.map (fetch_single_repository_details oracle)
      let results := fetched.map Prod.fst
      let calls := (fetched.map Prod.snd).flatten
      let args := processBatchResults unique_names results
      match mkBatchRepositoryDetailsResponse args with
      | .ok resp => (.ok resp, calls)
      | .error _ =>
        (.error (.githubAPIError "Batch repository details fetch failed".toList), calls)

/-- Computed constructor arguments of a batch call, for inspecting the
counts the pipeline produces (same pipeline as `get_batch_repo_details`,
stopping before the failing constructor call). -/
def batchCallArgs (oracle : PyStr → PyStr → Except PyStr ReadmeResult)
    (repository_names : List PyStr) : Option BatchResponseArgs :=
  match validate_repository_names repository_names with
  | .error _ => none
  | .ok validated_names =>
    let unique_names := dedupFirst validated_names
    let results := unique_names.map
      (fun n => (fetch_single_repository_details oracle n).fst)
    some (processBatchResults unique_names results)

/-- Fields of one starred-repositories page edge node as projected by
`tools/starred_repo_list.py` lines 78-100 (nested GraphQL dictionaries
already reduced to the extracted name strings). -/
structure StarredEdgeNode where
  id : PyStr
  nameWithOwner : PyStr
  description : Option PyStr
  stargazerCount : Int
  url : PyStr
  primaryLanguage : Option PyStr
  pushedAt : Option PyStr
  diskUsage : Option Int
  repositoryTopics : List PyStr
  languages : List PyStr
deriving DecidableEq

/-- One edge of a starred-repositories page. -/
structure StarredEdge where
  starredAt : Option PyStr
  node : StarredEdgeNode
deriving DecidableEq

/-- The `models.py::StartedRepository` model. -/
structure StartedRepository where
  repo_id : PyStr
  name_with_owner : PyStr
  name : PyStr
  owner : PyStr
  description : Option PyStr
  stargazer_count : Int
  url : PyStr
  primary_language : Option PyStr
  starred_at : Option PyStr
  pushed_at : Option PyStr
  disk_usage : Option Int
  repository_topics : List PyStr
  languages : List PyStr
deriving DecidableEq

/-- Translation of the per-edge record construction in
`tools/starred_repo_list.py::get_user_starred_repositories` (lines 73-101).
Line 77 reads `name, owner = name_with_owner.split("/", maxsplit=1)`, so
`name` is bound to the segment before the first `/` and `owner` to the
remainder.  Unpacking fails with `ValueError` when the split does not yield
exactly two parts. -/
def parseStarredEdge (edge : StarredEdge) : Except PyError StartedRepository :=
  let nwo := edge.node.nameWithOwner
  match pySplit1 '/' nwo with
  | [a, b] =>
    .ok { repo_id := edge.node.id
          name_with_owner := nwo
          name := a
          owner := b
          description := edge.node.description
          stargazer_count := edge.node.stargazerCount
          url := edge.node.url
          primary_language := edge.node.primaryLanguage
          starred_at := edge.starredAt
          pushed_at := edge.node.pushedAt
          disk_usage := edge.node.diskUsage
          repository_topics := edge.node.repositoryTopics
          languages := edge.node.languages }
  | _ => .error (.valueError "not enough values to unpack".toList)

/-- A GraphQL blob value as read by `get_repository_readme`
(keys `text` and `byteSize`). -/
structure ReadmeBlob where
  text : Option PyStr
  byteSize : Option Int
deriving DecidableEq

/-- A tree entry of the `readmeAlternatives` listing (keys `type`, `name`). -/
structure TreeEntry where
  entryType : PyStr
  entryName : PyStr
deriving DecidableEq

/-- The repository object of the README query response as read by
`get_repository_readme`: the `object` key and the
`readmeAlternatives.entries` listing (defaulted to empty when absent). -/
structure RepoReadmeData where
  object : Option ReadmeBlob
  readmeAlternativesEntries : List TreeEntry
deriving DecidableEq

/-- Python `s.lower()`. -/
def pyLower (s : PyStr) : PyStr := s.map Char.toLower

/-- Python `s.startswith(pat)`. -/
def listStartsWith : PyStr → PyStr → Bool
  | [], _ => true
  | _, [] => false
  | p :: ps, c :: cs => p = c && listStartsWith ps cs

/-- The `readme_files` list comprehension of
`utils/github_client.py::get_repository_readme` (lines 312-315). -/
def readmeCandidates (entries : List TreeEntry) : List PyStr :=
  (entries.filter (fun e =>
    e.entryType == "blob".toList &&
      listStartsWith "readme".toList (pyLower e.entryName))).map (·.entryName)

/-- The alternative-README branch of
`utils/github_client.py::get_repository_readme` (lines 308-355): run the
alternative query only when a README-like tree entry exists; its exception
is caught by the same `except Exception` as the primary query.  `qAlt`
stands for the value of `alt_data.get("repository", {}).get("object")` or
the exception the alternative query raises. -/
def readmeAltBranch (repoData : RepoReadmeData)
    (qAlt : Except PyStr (Option ReadmeBlob)) : ReadmeResult :=
  if readmeCandidates repoData.readmeAlternativesEntries ≠ [] then
    match qAlt with
    | .error e => ⟨none, none, false, some e⟩
    | .ok (some blob) =>
      match blob.text with
      | some t =>
        if t ≠ [] then ⟨some t, blob.byteSize, true, none⟩
        else ⟨none, none, false, none⟩
      | none => ⟨none, none, false, none⟩
    | .ok none => ⟨none, none, false, none⟩
  else ⟨none, none, false, none⟩

/-- Translation of `utils/github_client.py::GitHubClient.get_repository_readme`
(lines 271-364).  `q1` is the outcome of the primary GraphQL query: an
exception, or `data.get("repository")` (possibly `None`).  Every branch of
the Python function returns a four-key dictionary; the `except Exception`
at line 357 converts any raised exception into such a dictionary, so the
embedding is a total function into `ReadmeResult`. -/
def get_repository_readme (q1 : Except PyStr (Option RepoReadmeData))
    (qAlt : Except PyStr (Option ReadmeBlob)) : ReadmeResult :=
  match q1 with
  | .error e => ⟨none, none, false, some e⟩
  | .ok none => ⟨none, none, false, some "Repository not found".toList⟩
  | .ok (some repoData) =>
    match repoData.object with
    | some blob =>
      match blob.text with
      | some t =>
        if t ≠ [] then ⟨some t, blob.byteSize, true, none⟩
        else readmeAltBranch repoData qAlt
      | none => readmeAltBranch repoData qAlt
    | none => readmeAltBranch repoData qAlt

/-- Round-half-to-even of a rational to the nearest integer. -/
def roundHalfEven (q : ℚ) : ℤ :=
  let n := ⌊q⌋
  let r := q - (n : ℚ)
  if r < 1 / 2 then n
  else if 1 / 2 < (r : ℚ) then n + 1
  else if n % 2 = 0 then n else n + 1

/-- Python `round(x, 2)`, idealised over the rationals (the source computes
with binary doubles; ties and representation effects are modelled by exact
half-even rounding of the rational value). -/
def pyRound2 (q : ℚ) : ℚ := (roundHalfEven (100 * q) : ℚ) / 100

/-- Python `max(l)` guarded by `if l else 0` as in
`tools/analysis_bundle.py` line 258. -/
def pyMax : List Int → Int
  | [] => 0
  | h :: t => t.foldl max h

/-- Python `min(l)` guarded by `if l else 0` as in
`tools/analysis_bundle.py` line 259. -/
def pyMin : List Int → Int
  | [] => 0
  | h :: t => t.foldl min h

/-- Python `statistics.median`: sort, take the middle element, or the mean
of the two middle elements for even-length data. -/
def pyMedian (l : List Int) : ℚ :=
  let s := List.insertionSort (· ≤ ·) l
  let n := l.length
  if n % 2 = 1 then (s.getD (n / 2) 0 : ℚ)
  else ((s.getD (n / 2 - 1) 0 : ℚ) + (s.getD (n / 2) 0 : ℚ)) / 2

/-- The `models.py::StarStats` model. -/
structure StarStats where
  total_stars : Int
  average_stars : ℚ
  median_stars : ℚ
  max_stars : Int
  min_stars : Int
deriving DecidableEq

/-- Translation of the star-statistics computation of
`tools/analysis_bundle.py::create_starred_repo_analysis_bundle`
(lines 249-260): `total_stars = sum`, `average_stars = round(mean, 2)`,
`median_stars = round(median, 2)`, `max`/`min` with 0 for the empty list. -/
def starStatsOf (star_counts : List Int) : StarStats :=
  let total := star_counts.sum
  let avg : ℚ := if star_counts ≠ [] then (total : ℚ) / star_counts.length else 0
  let med : ℚ := if star_counts ≠ [] then pyMedian star_counts else 0
  { total_stars := total
    average_stars := pyRound2 avg
    median_stars := pyRound2 med
    max_stars := pyMax star_counts
    min_stars := pyMin star_counts }

/-- The `models.py::LanguageStats` model. -/
structure LanguageStats where
  language : PyStr
  count : ℕ
  percentage : ℚ
deriving DecidableEq

/-- The language-collection loop of
`tools/analysis_bundle.py::create_starred_repo_analysis_bundle`
(lines 209-215): per repository, `primary_language` when present followed
by every entry of `languages`. -/
def collectLanguages (repos : List StartedRepository) : List PyStr :=
  (repos.map (fun r =>
    (match r.primary_language with | some p => [p] | none => []) ++ r.languages)).flatten

/-- `collections.Counter` items in first-occurrence order, with counts. -/
def counterItems (l : List PyStr) : List (PyStr × ℕ) :=
  (dedupFirst l).map (fun s => (s, l.count s))

/-- Stable insertion (descending by count) used to model the sort inside
`Counter.most_common`: an element is placed after every element with a
count greater than or equal to its own. -/
def insertDescByCount (x : PyStr × ℕ) : List (PyStr × ℕ) → List (PyStr × ℕ)
  | [] => [x]
  | h :: t => if h.2 < x.2 then x :: h :: t else h :: insertDescByCount x t

/-- Stable sort descending by count (model of the sort in
`Counter.most_common`). -/
def sortDescByCount (l : List (PyStr × ℕ)) : List (PyStr × ℕ) :=
  l.foldl (fun acc x => insertDescByCount x acc) []

/-- `Counter(l).most_common(k)`: distinct elements with their counts,
sorted by count descending (stable), truncated to `k`. -/
def mostCommon (k : ℕ) (l : List PyStr) : List (PyStr × ℕ) :=
  (sortDescByCount (counterItems l)).take k

/-- Translation of the language-distribution computation of
`tools/analysis_bundle.py::create_starred_repo_analysis_bundle`
(lines 228-238): `most_common(10)` of the collected language list, with
`percentage = round(count / len(repository_details) * 100, 2)`. -/
def languageDistribution (repos : List StartedRepository) : List LanguageStats :=
  let langs := collectLanguages repos
  (mostCommon 10 langs).map (fun p =>
    ⟨p.1, p.2, pyRound2 ((p.2 : ℚ) / (repos.length : ℚ) * 100)⟩)

/-- One page as consumed by the pagination driver: repository ids of the
page edges, plus the page info. -/
structure DriverPage where
  repoIds : List ℕ
  hasNextPage : Bool
  endCursor : Option ℕ
deriving DecidableEq

/-- Modelled from the spec: the PaginationDriver of §4.2 (the composing
operation `build_full_analysis_bundle`, whose response model
`StarredRepositoriesWithReadmeResponse` is declared in `models.py`, is not
among the files under src; the starred-list tool and the client fetch a
single page each).  Each iteration requests the next page with the cursor
returned by the previous one, inserts the page's repositories into the
working accumulation deduplicating by `repo_id` (first occurrence wins,
insertion order preserved), and the loop terminates when `has_next_page`
is false or the accumulated distinct count reaches the cap.  `fuel` bounds
the number of page fetches so the function is total; the result is the
accumulated ids together with the number of pages fetched, or `none` if
the fuel was exhausted before the loop stopped. -/
def runPaginationDriver (source : Option ℕ → DriverPage) (cap : ℕ) :
    ℕ → Option ℕ → List ℕ → Option (List ℕ × ℕ)
  | 0, _, _ => none
  | fuel + 1, cursor, acc =>
    let page := source cursor
    let acc2 := page.repoIds.foldl (fun a i => if i ∈ a then a else a ++ [i]) acc
    if page.hasNextPage = false ∨ cap ≤ acc2.length then some (acc2, 1)
    else
      match runPaginationDriver source cap fuel page.endCursor acc2 with
      | none => none
      | some (r, n) => some (r, n + 1)

/-- A data-source stub that reports `has_next_page = true` indefinitely:
every page carries one repository id never seen before and a fresh cursor. -/
def stubSource : Option ℕ → DriverPage
  | none => ⟨[0], true, some 0⟩
  | some n => ⟨[n + 1], true, some (n + 1)⟩

/-- The cursor held by the stub-driven loop after `k` page fetches. -/
def cursorOf : ℕ → Option ℕ
  | 0 => none
  | k + 1 => some k

/-- Does an `Except` value hold a success? -/
def exceptIsOk : Except PyStr α → Bool
  | .ok _ => true
  | .error _ => false

/-- An oracle whose README fetch succeeds for every repository. -/
def successReadmeOracle : PyStr → PyStr → Except PyStr ReadmeResult :=
  fun _ _ => .ok ⟨some "# Hello-World".toList, some 13, true, none⟩

/-- An edge with `nameWithOwner = "octocat/Hello-World"` as returned by the
starred-repositories data source. -/
def sampleStarredEdge : StarredEdge :=
  ⟨some "2011-01-26T19:06:43Z".toList,
    ⟨"MDEwOlJlcG9zaXRvcnkxMjk2MjY5".toList, "octocat/Hello-World".toList,
      none, 1420, "https://github.com/octocat/Hello-World".toList,
      none, none, none, [], []⟩⟩

/-- Example repository list of the spec: a repository carrying only a
primary language. -/
def exampleRepo (p : Option PyStr) : StartedRepository :=
  ⟨[], [], [], [], none, 0, [], p, none, none, none, [], []⟩

/-- Three repositories with primary languages Python, Python, Go and empty
`languages` lists. -/
def exampleRepos : List StartedRepository :=
  [exampleRepo (some "Python".toList), exampleRepo (some "Python".toList),
    exampleRepo (some "Go".toList)]

lemma pyStrip_nil : pyStrip [] = [] := rfl

lemma pySplitAll_ne_nil (sep : Char) (s : PyStr) : pySplitAll sep s ≠ [] := by
  cases s with
  | nil => simp [pySplitAll]
  | cons c t =>
    unfold pySplitAll
    split <;> simp

lemma pySplitAll_of_not_mem {sep : Char} {s : PyStr} (h : sep ∉ s) :
    pySplitAll sep s = [s] := by
  induction s with
  | nil => rfl
  | cons c t ih =>
    have hcs : ¬c = sep := fun hc => h (hc ▸ List.mem_cons_self c t)
    have ht : sep ∉ t := fun hm => h (List.mem_cons_of_mem c hm)
    unfold pySplitAll
    rw [if_neg hcs, ih ht]
    rfl

lemma mem_of_pySplitAll_pair {sep : Char} {s : PyStr} {a b : PyStr}
    (h : pySplitAll sep s = [a, b]) : sep ∈ s := by
  by_contra hm
  rw [pySplitAll_of_not_mem hm] at h
  cases h

lemma isOwnerRepoShaped_nil : isOwnerRepoShaped [] = false := rfl

lemma validateNamesLoop_cons_shaped {n : PyStr} (t : List PyStr)
    (h : isOwnerRepoShaped (pyStrip n) = true) :
    validateNamesLoop (n :: t) = (validateNamesLoop t).map (fun v => pyStrip n :: v) := by
  obtain ⟨a, b, hsp, ha, hb⟩ :
      ∃ a b, pySplitAll '/' (pyStrip n) = [a, b] ∧
        a.isEmpty = false ∧ b.isEmpty = false := by
    unfold isOwnerRepoShaped at h
    split at h
    next a b heq =>
      simp only [Bool.and_eq_true, Bool.not_eq_true'] at h
      exact ⟨a, b, heq, h.1, h.2⟩
    next => exact absurd h (by simp)
  have hmne : pyStrip n ≠ [] := by
    intro he
    rw [he] at hsp
    simp [pySplitAll] at hsp
  have hmem : '/' ∈ pyStrip n := mem_of_pySplitAll_pair hsp
  simp only [validateNamesLoop]
  rw [if_neg hmne, if_neg (not_not_intro hmem), hsp]
  simp [ha, hb]

lemma validateNamesLoop_cons_not_shaped {n : PyStr} (t : List PyStr)
    (h : isOwnerRepoShaped (pyStrip n) = false) :
    ∃ msg, validateNamesLoop (n :: t) = .error msg := by
  simp only [validateNamesLoop]
  by_cases h1 : pyStrip n = []
  · rw [if_pos h1]; exact ⟨_, rfl⟩
  · rw [if_neg h1]
    by_cases h2 : '/' ∈ pyStrip n
    · rw [if_neg (not_not_intro h2)]
      unfold isOwnerRepoShaped at h
      rcases hsp : pySplitAll '/' (pyStrip n) with _ | ⟨a, rest⟩
      · exact absurd hsp (pySplitAll_ne_nil _ _)
      · rcases rest with _ | ⟨b, rest2⟩
        · exact ⟨_, rfl⟩
        · rcases rest2 with _ | ⟨c, rest3⟩
          · rw [hsp] at h
            simp only [Bool.and_eq_false_iff, Bool.not_eq_false'] at h
            have hcond : (a.isEmpty || b.isEmpty) = true := by
              rcases h with h | h <;> simp [h]
            exact ⟨"Invalid repository name format: ".toList ++ pyStrip n ++
              ". Expected format: owner/repo".toList, by simp [hcond]⟩
          · exact ⟨_, rfl⟩
    · rw [if_pos h2]; exact ⟨_, rfl⟩

lemma validateNamesLoop_ok_iff (l : List PyStr) :
    (∃ v, validateNamesLoop l = .ok v) ↔
      ∀ n ∈ l, isOwnerRepoShaped (pyStrip n) = true := by
  induction l with
  | nil => simp [validateNamesLoop]
  | cons n t ih =>
    rw [List.forall_mem_cons]
    by_cases h : isOwnerRepoShaped (pyStrip n) = true
    · rw [validateNamesLoop_cons_shaped t h]
      simp only [h, true_and]
      constructor
      · rintro ⟨v, hv⟩
        cases he : validateNamesLoop t with
        | ok w => exact ih.mp ⟨w, he⟩
        | error e =>
          rw [he] at hv
          simp [Except.map] at hv
      · intro hall
        obtain ⟨v, hv⟩ := ih.mpr hall
        exact ⟨_, by rw [hv]; rfl⟩
    · have hf : isOwnerRepoShaped (pyStrip n) = false := by simpa using h
      obtain ⟨msg, hmsg⟩ := validateNamesLoop_cons_not_shaped t hf
      rw [hmsg]
      simp [h]

/-- C5 (amended): batch validation accepts exactly the lists of 1 to 50
identifiers whose stripped form splits on `/` into exactly two non-empty
segments (so identifiers without a `/` are also rejected, and the ceiling
is 50, not 100); when validation fails, `get_batch_repo_details` raises
`ValidationError` and issues zero data-source calls. -/
theorem validate_repository_names_spec
    (oracle : PyStr → PyStr → Except PyStr ReadmeResult)
    (names : List PyStr) (maxC : Int) :
    ((∃ v, validate_repository_names names = .ok v) ↔
      (names ≠ [] ∧ names.length ≤ 50 ∧
        ∀ n ∈ names, isOwnerRepoShaped (pyStrip n) = true)) ∧
    (∀ e, validate_repository_names names = .error e →
      get_batch_repo_details oracle names maxC = (.error (.validationError e), [])) := by
  constructor
  · unfold validate_repository_names
    by_cases h1 : names = []
    · simp [h1]
    · rw [if_neg h1]
      by_cases h2 : 50 < names.length
      · simp [h2, Nat.not_le.mpr h2, h1]
      · rw [if_neg h2]
        rw [validateNamesLoop_ok_iff]
        simp [h1, Nat.not_lt.mp h2]
  · intro e he
    unfold get_batch_repo_details
    rw [he]

/-- C5 counterexample: the single-element list `["abc"]` (non-empty after
trimming, no `/`, hence well-formed under the claim's precondition list)
is rejected, and so is a list of 51 copies of the well-formed `"a/b"`
although the claim admits every well-formed list of up to 100 entries. -/
theorem validate_repository_names_claim_false :
    exceptIsOk (validate_repository_names ["abc".toList]) = false ∧
    pyStrip "abc".toList ≠ [] ∧
    exceptIsOk (validate_repository_names (List.replicate 51 "a/b".toList)) = false ∧
    (List.replicate 51 "a/b".toList).length ≤ 100 ∧
    (∀ n ∈ List.replicate 51 "a/b".toList, isOwnerRepoShaped (pyStrip n) = true) := by
  decide

/-- Witness for C5: a well-formed pair list passes validation and an
ill-formed one makes the batch tool raise `ValidationError` with no calls. -/
theorem validate_repository_names_spec_witness :
    (∃ v, validate_repository_names ["octocat/Hello-World".toList] = .ok v) ∧
    get_batch_repo_details (fun _ _ => .ok ⟨none, none, false, none⟩) [[]] 10 =
      (.error (.validationError "Repository name cannot be empty".toList), []) :=
  ⟨(validate_repository_names_spec (fun _ _ => .ok ⟨none, none, false, none⟩)
      ["octocat/Hello-World".toList] 10).1.mpr (by decide),
    (validate_repository_names_spec (fun _ _ => .ok ⟨none, none, false, none⟩)
      [[]] 10).2 _ rfl⟩

/-- C1: evaluation of the batch tool at a validated single-item input whose
underlying README fetch succeeds.  The per-item fetch nevertheless returns
`None` (the undefined name `Repository` at line 95 raises `NameError`,
caught at line 106), and the batch call raises `GitHubAPIError` (the
response constructor lacks the model's required `data` field, and the
resulting exception is wrapped at lines 190-192) — it does not return a
result with one entry per successful item. -/
theorem batch_raises_on_success :
    (fetch_single_repository_details successReadmeOracle
        "octocat/Hello-World".toList).fst = none ∧
    (get_batch_repo_details successReadmeOracle
        ["octocat/Hello-World".toList] 10).fst =
      .error (.githubAPIError "Batch repository details fetch failed".toList) := by
  decide

/-- C2: evaluation of the per-edge parser at
`nameWithOwner = "octocat/Hello-World"`.  Line 77 of
`tools/starred_repo_list.py` binds `name` to the segment before the first
`/` and `owner` to the remainder (the unpacking order is swapped), so the
constructed record violates `name_with_owner == owner + "/" + name`. -/
theorem starred_parse_swaps_owner_name :
    (parseStarredEdge sampleStarredEdge).map
        (fun r => (r.name_with_owner, r.name, r.owner)) =
      .ok ("octocat/Hello-World".toList, "octocat".toList, "Hello-World".toList) ∧
    "Hello-World".toList ++ '/' :: "octocat".toList ≠ "octocat/Hello-World".toList := by
  decide

lemma batch_counts_add :
    ∀ (names : List PyStr) (results : List (Option RepositoryDetails)),
      names.length = results.length →
      ((names.zip results).filterMap
          (fun p => if p.2.isNone then some p.1 else none)).length
        + (results.filterMap id).length = results.length
  | [], [], _ => rfl
  | [], _ :: _, h => by cases h
  | _ :: _, [], h => by cases h
  | n :: ns, r :: rs, h => by
    have ih := batch_counts_add ns rs (by simpa using h)
    cases r with
    | none =>
      have e1 : ((n :: ns).zip (none :: rs)).filterMap
            (fun p => if p.2.isNone then some p.1 else none)
          = n :: (ns.zip rs).filterMap (fun p => if p.2.isNone then some p.1 else none) := by
        simp [List.filterMap_cons]
      have e2 : (List.filterMap id (none :: rs) : List RepositoryDetails)
          = rs.filterMap id := by simp
      rw [e1, e2, List.length_cons, List.length_cons]
      omega
    | some v =>
      have e1 : ((n :: ns).zip ((some v) :: rs)).filterMap
            (fun p => if p.2.isNone then some p.1 else none)
          = (ns.zip rs).filterMap (fun p => if p.2.isNone then some p.1 else none) := by
        simp [List.filterMap_cons]
      have e2 : List.filterMap id ((some v) :: rs) = v :: rs.filterMap id := by
        simp
      rw [e1, e2, List.length_cons, List.length_cons]
      omega

/-- C4 (amended): for every validated identifier list, the batch pipeline
keeps exactly the successful per-item results (in order), reports
`total_count` equal to the number of DISTINCT identifiers after
order-preserving deduplication (not the raw requested length),
`success_count` equal to the number of kept entries, and `error_count`
equal to `total_count - success_count`; these are the values handed to the
response constructor. -/
theorem batch_counts_spec (oracle : PyStr → PyStr → Except PyStr ReadmeResult)
    (names validated : List PyStr)
    (h : validate_repository_names names = .ok validated) :
    ∃ args, batchCallArgs oracle names = some args ∧
      args.total_count = (dedupFirst validated).length ∧
      args.repository_details = ((dedupFirst validated).map
        (fun n => (fetch_single_repository_details oracle n).fst)).filterMap id ∧
      args.success_count = args.repository_details.length ∧
      args.error_count = args.total_count - args.success_count := by
  refine ⟨processBatchResults (dedupFirst validated) ((dedupFirst validated).map
    (fun n => (fetch_single_repository_details oracle n).fst)),
    by unfold batchCallArgs; rw [h], rfl, rfl, rfl, ?_⟩
  have hadd := batch_counts_add (dedupFirst validated)
    ((dedupFirst validated).map (fun n => (fetch_single_repository_details oracle n).fst))
    (List.length_map _ _).symm
  simp only [processBatchResults, List.length_map] at *
  omega

/-- Witness for C4 at the duplicated input `["a/b", "a/b"]`. -/
theorem batch_counts_spec_witness :
    ∃ args, batchCallArgs (fun _ _ => .ok ⟨none, none, false, none⟩)
        ["a/b".toList, "a/b".toList] = some args ∧
      args.total_count = (dedupFirst ["a/b".toList, "a/b".toList]).length ∧
      args.repository_details = ((dedupFirst ["a/b".toList, "a/b".toList]).map
        (fun n => (fetch_single_repository_details
          (fun _ _ => .ok ⟨none, none, false, none⟩) n).fst)).filterMap id ∧
      args.success_count = args.repository_details.length ∧
      args.error_count = args.total_count - args.success_count :=
  batch_counts_spec _ _ _ rfl

/-- C4 counterexample: with the duplicated request `["a/b", "a/b"]`
(requested length 2), validation passes and the pipeline computes
`total_count = 1`, the number of distinct identifiers — not the length of
the requested list. -/
theorem batch_total_ignores_duplicates :
    validate_repository_names ["a/b".toList, "a/b".toList] =
      .ok ["a/b".toList, "a/b".toList] ∧
    (batchCallArgs (fun _ _ => .ok ⟨none, none, false, none⟩)
        ["a/b".toList, "a/b".toList]).map (fun a => a.total_count) = some 1 ∧
    (["a/b".toList, "a/b".toList] : List PyStr).length = 2 := by
  decide

/-- C8: the username validator accepts exactly the strings whose stripped
form is non-empty, at most 39 characters, built from alphanumerics and
hyphens, with no leading or trailing hyphen and no consecutive hyphens;
acceptance returns the stripped string and every violation is rejected. -/
theorem validate_github_username_spec (s : PyStr) :
    (validate_github_username s = .ok (pyStrip s) ↔ SpecValidUsername (pyStrip s)) ∧
    ((∃ e, validate_github_username s = .error e) ↔ ¬ SpecValidUsername (pyStrip s)) := by
  unfold validate_github_username SpecValidUsername
  by_cases hs : s = []
  · subst hs
    simp [pyStrip_nil]
  · simp only [if_neg hs]
    split_ifs with h1 h2 h3 h4 h5 <;>
      (simp_all [List.all_eq_true, not_or]; try tauto)

/-- Witness for C8 at the concrete input `"  octocat  "`. -/
theorem validate_github_username_spec_witness :
    validate_github_username "  octocat  ".toList = .ok (pyStrip "  octocat  ".toList) :=
  (validate_github_username_spec "  octocat  ".toList).1.mpr (by decide)

lemma readmeAltBranch_error (rd : RepoReadmeData) (e : PyStr) :
    readmeAltBranch rd (.error e) = ⟨none, none, false, some e⟩ ∨
      (readmeAltBranch rd (.error e)).error = none := by
  unfold readmeAltBranch
  split_ifs with h
  · exact .inl rfl
  · exact .inr rfl

/-- C10: the README client returns a four-field record on every outcome of
the underlying queries: a raised exception becomes a result with
`has_readme = false` and `error` set to the exception's message (this also
holds when the alternative-README query is the one that raises — then
either that error record is returned or the alternative query was never
issued and `error` is `None`), and a missing repository yields
`has_readme = false` with `error = "Repository not found"`.  Totality of
the embedding models that the function never raises. -/
theorem readme_never_raises (q1 : Except PyStr (Option RepoReadmeData))
    (qAlt : Except PyStr (Option ReadmeBlob)) :
    (∀ e, q1 = .error e →
      get_repository_readme q1 qAlt = ⟨none, none, false, some e⟩) ∧
    (q1 = .ok none →
      get_repository_readme q1 qAlt =
        ⟨none, none, false, some "Repository not found".toList⟩) ∧
    (∀ rd e, q1 = .ok (some rd) → qAlt = .error e →
      get_repository_readme q1 qAlt = ⟨none, none, false, some e⟩ ∨
        (get_repository_readme q1 qAlt).error = none) := by
  refine ⟨?_, ?_, ?_⟩
  · rintro e rfl; rfl
  · rintro rfl; rfl
  · rintro rd e rfl rfl
    simp only [get_repository_readme]
    split
    · split
      · split_ifs with hne
        · exact .inr rfl
        · exact readmeAltBranch_error rd e
      · exact readmeAltBranch_error rd e
    · exact readmeAltBranch_error rd e

/-- Witness for C10: a raised primary query and a missing repository. -/
theorem readme_never_raises_witness :
    get_repository_readme (.error "boom".toList) (.ok none) =
      ⟨none, none, false, some "boom".toList⟩ ∧
    get_repository_readme (.ok none) (.ok none) =
      ⟨none, none, false, some "Repository not found".toList⟩ :=
  ⟨(readme_never_raises (.error "boom".toList) (.ok none)).1 _ rfl,
    (readme_never_raises (.ok none) (.ok none)).2.1 rfl⟩

lemma roundHalfEven_intCast (z : ℤ) : roundHalfEven (z : ℚ) = z := by
  simp only [roundHalfEven, Int.floor_intCast, sub_self]
  norm_num

lemma roundHalfEven_sub_le (q : ℚ) : |((roundHalfEven q : ℤ) : ℚ) - q| ≤ 1 / 2 := by
  have h0 : ((⌊q⌋ : ℤ) : ℚ) ≤ q := Int.floor_le q
  have h1 : q < (⌊q⌋ : ℚ) + 1 := Int.lt_floor_add_one q
  simp only [roundHalfEven]
  split_ifs with ha hb hc <;>
    (rw [abs_le]; constructor) <;> push_cast <;> linarith

lemma pyRound2_sub_le (q : ℚ) : |pyRound2 q - q| ≤ 1 / 200 := by
  have h := roundHalfEven_sub_le (100 * q)
  rw [abs_le] at h ⊢
  unfold pyRound2
  constructor <;> [linarith [h.1]; linarith [h.2]]

lemma pyRound2_eq_of_mul_int (q : ℚ) (z : ℤ) (h : 100 * q = (z : ℚ)) :
    pyRound2 q = q := by
  unfold pyRound2
  rw [h, roundHalfEven_intCast, ← h]
  exact mul_div_cancel_left₀ q (by norm_num)

lemma foldl_max_mem : ∀ (t : List Int) (a : Int), t.foldl max a = a ∨ t.foldl max a ∈ t
  | [], _ => .inl rfl
  | h :: t, a => by
    rcases foldl_max_mem t (max a h) with hc | hc
    · rcases max_choice a h with hm | hm
      · exact .inl (by rw [List.foldl_cons, hc, hm])
      · exact .inr (by rw [List.foldl_cons, hc, hm]; exact List.mem_cons_self _ _)
    · exact .inr (List.mem_cons_of_mem _ hc)

lemma le_foldl_max : ∀ (t : List Int) (a : Int),
    a ≤ t.foldl max a ∧ ∀ x ∈ t, x ≤ t.foldl max a
  | [], a => ⟨le_refl a, by simp⟩
  | h :: t, a => by
    obtain ⟨h1, h2⟩ := le_foldl_max t (max a h)
    refine ⟨le_trans (le_max_left a h) h1, ?_⟩
    intro x hx
    rcases List.mem_cons.mp hx with rfl | hx
    · exact le_trans (le_max_right a x) h1
    · exact h2 x hx

lemma foldl_min_mem : ∀ (t : List Int) (a : Int), t.foldl min a = a ∨ t.foldl min a ∈ t
  | [], _ => .inl rfl
  | h :: t, a => by
    rcases foldl_min_mem t (min a h) with hc | hc
    · rcases min_choice a h with hm | hm
      · exact .inl (by rw [List.foldl_cons, hc, hm])
      · exact .inr (by rw [List.foldl_cons, hc, hm]; exact List.mem_cons_self _ _)
    · exact .inr (List.mem_cons_of_mem _ hc)

lemma foldl_min_le : ∀ (t : List Int) (a : Int),
    t.foldl min a ≤ a ∧ ∀ x ∈ t, t.foldl min a ≤ x
  | [], a => ⟨le_refl a, by simp⟩
  | h :: t, a => by
    obtain ⟨h1, h2⟩ := foldl_min_le t (min a h)
    refine ⟨le_trans h1 (min_le_left a h), ?_⟩
    intro x hx
    rcases List.mem_cons.mp hx with rfl | hx
    · exact le_trans h1 (min_le_right a x)
    · exact h2 x hx

lemma pyMax_mem {l : List Int} (h : l ≠ []) : pyMax l ∈ l := by
  obtain ⟨a, t, rfl⟩ := List.exists_cons_of_ne_nil h
  show t.foldl max a ∈ a :: t
  rcases foldl_max_mem t a with hc | hc
  · rw [hc]; exact List.mem_cons_self _ _
  · exact List.mem_cons_of_mem _ hc

lemma le_pyMax {l : List Int} (h : l ≠ []) : ∀ x ∈ l, x ≤ pyMax l := by
  obtain ⟨a, t, rfl⟩ := List.exists_cons_of_ne_nil h
  intro x hx
  rcases List.mem_cons.mp hx with rfl | hx
  · exact (le_foldl_max t x).1
  · exact (le_foldl_max t a).2 x hx

lemma pyMin_mem {l : List Int} (h : l ≠ []) : pyMin l ∈ l := by
  obtain ⟨a, t, rfl⟩ := List.exists_cons_of_ne_nil h
  show t.foldl min a ∈ a :: t
  rcases foldl_min_mem t a with hc | hc
  · rw [hc]; exact List.mem_cons_self _ _
  · exact List.mem_cons_of_mem _ hc

lemma pyMin_le {l : List Int} (h : l ≠ []) : ∀ x ∈ l, pyMin l ≤ x := by
  obtain ⟨a, t, rfl⟩ := List.exists_cons_of_ne_nil h
  intro x hx
  rcases List.mem_cons.mp hx with rfl | hx
  · exact (foldl_min_le t x).1
  · exact (foldl_min_le t a).2 x hx

lemma exists_int_hundred_mul_pyMedian (l : List Int) :
    ∃ z : ℤ, 100 * pyMedian l = (z : ℚ) := by
  simp only [pyMedian]
  split_ifs with h
  · exact ⟨100 * ((List.insertionSort (· ≤ ·) l).getD (l.length / 2) 0), by push_cast; ring⟩
  · refine ⟨50 * ((List.insertionSort (· ≤ ·) l).getD (l.length / 2 - 1) 0 +
      (List.insertionSort (· ≤ ·) l).getD (l.length / 2) 0), by push_cast; ring⟩

lemma sortedGetD_mem {l : List Int} {i : ℕ} (h : i < l.length) :
    (List.insertionSort (· ≤ ·) l).getD i 0 ∈ l := by
  have hperm := List.perm_insertionSort (· ≤ ·) l
  have hlen : (List.insertionSort (· ≤ ·) l).length = l.length := hperm.length_eq
  have hi : i < (List.insertionSort (· ≤ ·) l).length := by omega
  rw [List.getD_eq_getElem _ _ hi]
  exact hperm.mem_iff.mp (List.getElem_mem hi)

lemma roundHalfEven_zero : roundHalfEven 0 = 0 := by
  simp only [roundHalfEven, Int.floor_zero]
  norm_num

lemma pyRound2_zero : pyRound2 0 = 0 := by
  unfold pyRound2
  rw [mul_zero, roundHalfEven_zero]
  norm_num

/-- C6 (amended): star statistics computed by the aggregator satisfy:
total is the sum of the counts; on the empty list every statistic is 0 (no
division error); on non-empty lists, max and min are the greatest and least
counts, the average is the true mean rounded to two decimals (within 1/200
of `total / length`, and exactly equal to it whenever the mean times 100 is
an integer — the claim's unrounded equality fails in general), and the
median equals the standard statistical median exactly (its rounding is
vacuous on integer data), a middle element for odd lengths and the mean of
two elements for even lengths. -/
theorem star_statistics_spec (counts : List Int) :
    (starStatsOf counts).total_stars = counts.sum ∧
    (counts = [] → starStatsOf counts = ⟨0, 0, 0, 0, 0⟩) ∧
    (counts ≠ [] →
      (starStatsOf counts).max_stars ∈ counts ∧
      (∀ x ∈ counts, x ≤ (starStatsOf counts).max_stars) ∧
      (starStatsOf counts).min_stars ∈ counts ∧
      (∀ x ∈ counts, (starStatsOf counts).min_stars ≤ x) ∧
      |(starStatsOf counts).average_stars -
        (counts.sum : ℚ) / (counts.length : ℚ)| ≤ 1 / 200 ∧
      (∀ z : ℤ, 100 * ((counts.sum : ℚ) / (counts.length : ℚ)) = (z : ℚ) →
        (starStatsOf counts).average_stars =
          (counts.sum : ℚ) / (counts.length : ℚ)) ∧
      (starStatsOf counts).median_stars = pyMedian counts ∧
      (counts.length % 2 = 1 →
        ∃ x ∈ counts, (starStatsOf counts).median_stars = (x : ℚ)) ∧
      (counts.length % 2 = 0 →
        ∃ x ∈ counts, ∃ y ∈ counts,
          (starStatsOf counts).median_stars = ((x : ℚ) + (y : ℚ)) / 2)) := by
  refine ⟨rfl, ?_, ?_⟩
  · rintro rfl
    simp [starStatsOf, pyRound2_zero, pyMax, pyMin]
  · intro hne
    have havg : (starStatsOf counts).average_stars =
        pyRound2 ((counts.sum : ℚ) / (counts.length : ℚ)) := by
      simp only [starStatsOf, if_pos hne]
    have hmed : (starStatsOf counts).median_stars = pyRound2 (pyMedian counts) := by
      simp only [starStatsOf, if_pos hne]
    obtain ⟨zm, hzm⟩ := exists_int_hundred_mul_pyMedian counts
    have hmede : (starStatsOf counts).median_stars = pyMedian counts := by
      rw [hmed, pyRound2_eq_of_mul_int _ zm hzm]
    refine ⟨pyMax_mem hne, le_pyMax hne, pyMin_mem hne, pyMin_le hne, ?_, ?_, hmede,
      ?_, ?_⟩
    · rw [havg]; exact pyRound2_sub_le _
    · intro z hz
      rw [havg, pyRound2_eq_of_mul_int _ z hz]
    · intro hodd
      have hlt : counts.length / 2 < counts.length := by
        have : counts.length ≠ 0 := fun h => hne (List.eq_nil_of_length_eq_zero h)
        omega
      refine ⟨(List.insertionSort (· ≤ ·) counts).getD (counts.length / 2) 0,
        sortedGetD_mem hlt, ?_⟩
      rw [hmede]
      simp only [pyMedian, if_pos hodd]
    · intro heven
      have hlen : counts.length ≠ 0 := fun h => hne (List.eq_nil_of_length_eq_zero h)
      have hlt1 : counts.length / 2 - 1 < counts.length := by omega
      have hlt2 : counts.length / 2 < counts.length := by omega
      refine ⟨(List.insertionSort (· ≤ ·) counts).getD (counts.length / 2 - 1) 0,
        sortedGetD_mem hlt1,
        (List.insertionSort (· ≤ ·) counts).getD (counts.length / 2) 0,
        sortedGetD_mem hlt2, ?_⟩
      rw [hmede]
      have hodd : ¬counts.length % 2 = 1 := by omega
      simp only [pyMedian, if_neg hodd]

lemma roundHalfEven_eq_of_lt {q : ℚ} {n : ℤ} (hfl : ⌊q⌋ = n)
    (h : q - (n : ℚ) < 1 / 2) : roundHalfEven q = n := by
  simp only [roundHalfEven, hfl]
  rw [if_pos h]

lemma roundHalfEven_eq_of_gt {q : ℚ} {n : ℤ} (hfl : ⌊q⌋ = n)
    (h : 1 / 2 < q - (n : ℚ)) : roundHalfEven q = n + 1 := by
  simp only [roundHalfEven, hfl]
  rw [if_neg (by linarith), if_pos h]

/-- C6 counterexample: for star counts `[0, 0, 1]` the computed average is
`0.33`, the two-decimal rounding of the true mean `1/3`, so the claimed
equation `average = total / length` fails. -/
theorem star_average_rounds :
    ([0, 0, 1] : List Int).sum = 1 ∧ ([0, 0, 1] : List Int).length = 3 ∧
    (starStatsOf [0, 0, 1]).average_stars = 33 / 100 ∧
    ((33 : ℚ) / 100) ≠ ((1 : ℚ) / 3) := by
  refine ⟨by decide, by decide, ?_, by norm_num⟩
  have havg : (starStatsOf [0, 0, 1]).average_stars = pyRound2 ((1 : ℚ) / 3) := by
    simp only [starStatsOf]
    rw [if_pos (by decide : ([0, 0, 1] : List Int) ≠ [])]
    norm_num [List.sum_cons, List.sum_nil]
  rw [havg]
  have hfl : ⌊(100 : ℚ) * (1 / 3)⌋ = 33 := by
    rw [Int.floor_eq_iff]
    norm_num
  unfold pyRound2
  rw [roundHalfEven_eq_of_lt hfl (by norm_num)]
  norm_num

/-- Witness for C6 at the spec's example `[10, 20, 30, 40]`. -/
theorem star_statistics_spec_witness :
    (starStatsOf [10, 20, 30, 40]).median_stars = pyMedian [10, 20, 30, 40] ∧
    (starStatsOf [10, 20, 30, 40]).average_stars =
      ((([10, 20, 30, 40] : List Int).sum : ℚ) /
        (([10, 20, 30, 40] : List Int).length : ℚ)) ∧
    (starStatsOf [10, 20, 30, 40]).max_stars ∈ ([10, 20, 30, 40] : List Int) := by
  have h := (star_statistics_spec [10, 20, 30, 40]).2.2 (by decide)
  refine ⟨h.2.2.2.2.2.2.1, h.2.2.2.2.2.1 2500 ?_, h.1⟩
  norm_num

lemma stub_cursor_page (k : ℕ) : stubSource (cursorOf k) = ⟨[k], true, some k⟩ := by
  cases k <;> rfl

lemma range_insert_fold (k : ℕ) :
    ([k] : List ℕ).foldl (fun a i => if i ∈ a then a else a ++ [i]) (List.range k) =
      List.range (k + 1) := by
  simp only [List.foldl_cons, List.foldl_nil]
  rw [if_neg (by simp [List.mem_range])]
  exact (List.range_succ k).symm

lemma driver_stop_condition :
    ∀ (fuel : ℕ) (source : Option ℕ → DriverPage) (cap : ℕ) (cursor : Option ℕ)
      (acc r : List ℕ) (n : ℕ),
      runPaginationDriver source cap fuel cursor acc = some (r, n) →
      cap ≤ r.length ∨ ∃ c, (source c).hasNextPage = false := by
  intro fuel
  induction fuel with
  | zero => intro source cap cursor acc r n h; cases h
  | succ fuel ih =>
    intro source cap cursor acc r n h
    simp only [runPaginationDriver] at h
    split at h
    next hcond =>
      rcases hcond with hfalse | hcap
      · exact .inr ⟨cursor, hfalse⟩
      · injection h with h
        obtain ⟨rfl, -⟩ := Prod.mk.injEq .. ▸ (Prod.mk.inj h)
        exact .inl hcap
    next =>
      cases hrec : runPaginationDriver source cap fuel (source cursor).endCursor
          ((source cursor).repoIds.foldl (fun a i => if i ∈ a then a else a ++ [i]) acc) with
      | none => rw [hrec] at h; cases h
      | some p =>
        rw [hrec] at h
        obtain ⟨r2, n2⟩ := p
        injection h with h
        obtain ⟨rfl, -⟩ := Prod.mk.inj h
        exact ih source cap _ _ _ _ hrec

lemma stub_run :
    ∀ (fuel k cap : ℕ), k < cap → cap ≤ fuel + k →
      runPaginationDriver stubSource cap fuel (cursorOf k) (List.range k) =
        some (List.range cap, cap - k)
  | 0, k, cap, h1, h2 => absurd h1 (by omega)
  | fuel + 1, k, cap, h1, h2 => by
    simp only [runPaginationDriver, stub_cursor_page]
    rw [range_insert_fold]
    by_cases hstop : cap ≤ k + 1
    · have hcapk : cap = k + 1 := by omega
      rw [if_pos (.inr (by simpa [List.length_range] using hstop))]
      simp [hcapk]
    · have hne : ¬((true = false) ∨ cap ≤ (List.range (k + 1)).length) := by
        simp only [List.length_range]
        push_neg
        exact ⟨by simp, by omega⟩
      rw [if_neg hne]
      have hrec := stub_run fuel (k + 1) cap (by omega) (by omega)
      simp only [cursorOf] at hrec
      rw [hrec]
      simp only [Option.some.injEq, Prod.mk.injEq, true_and]
      omega

/-- C3 (spec-modelled): the pagination driver requests each page with the
cursor produced by the previous iteration, stops only when the page reports
`has_next_page = false` or the accumulated distinct-repository count has
reached the cap, and, against a data-source stub that reports
`has_next_page = true` indefinitely (one fresh repository per page), it
still terminates as soon as the cap is reached, having fetched exactly
`cap` pages and accumulated exactly `cap` distinct repositories. -/
theorem pagination_driver_spec :
    (∀ (source : Option ℕ → DriverPage) (cap fuel : ℕ) (cursor : Option ℕ)
        (acc r : List ℕ) (n : ℕ),
      runPaginationDriver source cap fuel cursor acc = some (r, n) →
      cap ≤ r.length ∨ ∃ c, (source c).hasNextPage = false) ∧
    (∀ cap fuel : ℕ, 0 < cap → cap ≤ fuel →
      runPaginationDriver stubSource cap fuel none [] =
        some (List.range cap, cap)) := by
  constructor
  · exact fun source cap fuel cursor acc r n h =>
      driver_stop_condition fuel source cap cursor acc r n h
  · intro cap fuel h1 h2
    have h := stub_run fuel 0 cap h1 (by omega)
    simpa [cursorOf] using h

/-- Witness for C3: cap 3 with fuel 5 stops after exactly 3 pages with the
3 accumulated distinct repositories. -/
theorem pagination_driver_spec_witness :
    runPaginationDriver stubSource 3 5 none [] = some (List.range 3, 3) :=
  pagination_driver_spec.2 3 5 (by decide) (by decide)

lemma dedup_fold_mem :
    ∀ (l acc : List PyStr) (x : PyStr),
      (x ∈ l.foldl (fun a s => if s ∈ a then a else a ++ [s]) acc) ↔
        x ∈ acc ∨ x ∈ l := by
  intro l
  induction l with
  | nil => simp
  | cons h t ih =>
    intro acc x
    simp only [List.foldl_cons]
    by_cases hm : h ∈ acc
    · rw [if_pos hm, ih]
      constructor
      · rintro (hx | hx)
        · exact .inl hx
        · exact .inr (List.mem_cons_of_mem _ hx)
      · rintro (hx | hx)
        · exact .inl hx
        · rcases List.mem_cons.mp hx with rfl | hx
          · exact .inl hm
          · exact .inr hx
    · rw [if_neg hm, ih]
      simp only [List.mem_append, List.mem_singleton, List.mem_cons]
      tauto

lemma dedup_fold_nodup :
    ∀ (l acc : List PyStr), acc.Nodup →
      (l.foldl (fun a s => if s ∈ a then a else a ++ [s]) acc).Nodup := by
  intro l
  induction l with
  | nil => exact fun acc h => h
  | cons h t ih =>
    intro acc hacc
    simp only [List.foldl_cons]
    by_cases hm : h ∈ acc
    · rw [if_pos hm]; exact ih acc hacc
    · rw [if_neg hm]
      exact ih _ (List.nodup_append.mpr
        ⟨hacc, List.nodup_singleton h, List.disjoint_singleton.mpr hm⟩)

lemma mem_dedupFirst {l : List PyStr} {x : PyStr} : x ∈ dedupFirst l ↔ x ∈ l := by
  unfold dedupFirst
  rw [dedup_fold_mem]
  simp

lemma nodup_dedupFirst (l : List PyStr) : (dedupFirst l).Nodup :=
  dedup_fold_nodup l [] (List.nodup_nil)

lemma counterItems_mem {l : List PyStr} {p : PyStr × ℕ} :
    p ∈ counterItems l ↔ p.1 ∈ l ∧ p.2 = l.count p.1 := by
  unfold counterItems
  rw [List.mem_map]
  constructor
  · rintro ⟨s, hs, rfl⟩
    exact ⟨mem_dedupFirst.mp hs, rfl⟩
  · rintro ⟨h1, h2⟩
    exact ⟨p.1, mem_dedupFirst.mpr h1, by rw [← h2]⟩

lemma counterItems_map_fst (l : List PyStr) :
    (counterItems l).map Prod.fst = dedupFirst l := by
  simp only [counterItems, List.map_map]
  exact List.map_id _ ▸ rfl

lemma counterItems_length (l : List PyStr) :
    (counterItems l).length = (dedupFirst l).length := by
  simp [counterItems]

lemma mem_insertDesc {x y : PyStr × ℕ} :
    ∀ {l : List (PyStr × ℕ)}, y ∈ insertDescByCount x l ↔ y = x ∨ y ∈ l
  | [] => by simp [insertDescByCount]
  | h :: t => by
    unfold insertDescByCount
    split_ifs with hc
    · simp [List.mem_cons]
    · rw [List.mem_cons, mem_insertDesc (l := t), List.mem_cons]
      tauto

lemma perm_insertDesc (x : PyStr × ℕ) :
    ∀ (l : List (PyStr × ℕ)), (insertDescByCount x l).Perm (x :: l)
  | [] => List.Perm.refl _
  | h :: t => by
    unfold insertDescByCount
    split_ifs with hc
    · exact List.Perm.refl _
    · exact ((perm_insertDesc x t).cons h).trans (List.Perm.swap x h t)

lemma pairwise_insertDesc {x : PyStr × ℕ} :
    ∀ {l : List (PyStr × ℕ)}, l.Pairwise (fun a b => b.2 ≤ a.2) →
      (insertDescByCount x l).Pairwise (fun a b => b.2 ≤ a.2)
  | [], _ => List.pairwise_singleton _ x
  | h :: t, hp => by
    obtain ⟨hh, ht⟩ := List.pairwise_cons.mp hp
    unfold insertDescByCount
    split_ifs with hc
    · refine List.pairwise_cons.mpr ⟨?_, hp⟩
      intro y hy
      rcases List.mem_cons.mp hy with rfl | hy
      · exact le_of_lt hc
      · exact le_trans (hh y hy) (le_of_lt hc)
    · refine List.pairwise_cons.mpr ⟨?_, pairwise_insertDesc ht⟩
      intro y hy
      rcases mem_insertDesc.mp hy with rfl | hy
      · exact le_of_not_lt hc
      · exact hh y hy

lemma sortDesc_fold_perm :
    ∀ (l acc : List (PyStr × ℕ)),
      (l.foldl (fun acc x => insertDescByCount x acc) acc).Perm (acc ++ l) := by
  intro l
  induction l with
  | nil => simp
  | cons x t ih =>
    intro acc
    simp only [List.foldl_cons]
    refine (ih (insertDescByCount x acc)).trans ?_
    refine (((perm_insertDesc x acc).append_right t).trans ?_)
    exact (List.perm_middle).symm

lemma sortDesc_fold_pairwise :
    ∀ (l acc : List (PyStr × ℕ)), acc.Pairwise (fun a b => b.2 ≤ a.2) →
      (l.foldl (fun acc x => insertDescByCount x acc) acc).Pairwise
        (fun a b => b.2 ≤ a.2) := by
  intro l
  induction l with
  | nil => exact fun acc h => h
  | cons x t ih =>
    intro acc hacc
    simp only [List.foldl_cons]
    exact ih _ (pairwise_insertDesc hacc)

lemma sortDescByCount_perm (l : List (PyStr × ℕ)) : (sortDescByCount l).Perm l :=
  (sortDesc_fold_perm l []).trans (by simp)

lemma sortDescByCount_pairwise (l : List (PyStr × ℕ)) :
    (sortDescByCount l).Pairwise (fun a b => b.2 ≤ a.2) :=
  sortDesc_fold_pairwise l [] List.Pairwise.nil

/-- C7: the language distribution counts one occurrence of
`primary_language` when present plus one per entry of `languages`, grouped
by name (each entry's count is the number of occurrences of its name in
that collection, and is positive); each percentage is count divided by the
number of repositories considered, times 100, rounded to two decimals;
entries are sorted descending by count and truncated to the 10 largest
(every name left out has a count no larger than any kept entry); on the
spec's example the distribution is Python (2, 66.67) and Go (1, 33.33). -/
theorem language_distribution_spec (repos : List StartedRepository) :
    (∀ e ∈ languageDistribution repos,
      e.count = (collectLanguages repos).count e.language ∧
      0 < e.count ∧
      e.percentage =
        pyRound2 (((collectLanguages repos).count e.language : ℚ) /
          (repos.length : ℚ) * 100)) ∧
    (languageDistribution repos).Pairwise (fun a b => b.count ≤ a.count) ∧
    (languageDistribution repos).length =
      min 10 (dedupFirst (collectLanguages repos)).length ∧
    (∀ name ∈ collectLanguages repos,
      name ∉ (languageDistribution repos).map (fun e => e.language) →
      ∀ e ∈ languageDistribution repos,
        (collectLanguages repos).count name ≤ e.count) ∧
    languageDistribution exampleRepos =
      [⟨"Python".toList, 2, 6667 / 100⟩, ⟨"Go".toList, 1, 3333 / 100⟩] := by
  have hperm := sortDescByCount_perm (counterItems (collectLanguages repos))
  have hpair := sortDescByCount_pairwise (counterItems (collectLanguages repos))
  have hdist : languageDistribution repos =
      ((sortDescByCount (counterItems (collectLanguages repos))).take 10).map
        (fun p => ⟨p.1, p.2, pyRound2 ((p.2 : ℚ) / (repos.length : ℚ) * 100)⟩) := rfl
  refine ⟨?_, ?_, ?_, ?_, ?_⟩
  · intro e he
    rw [hdist] at he
    obtain ⟨p, hp, rfl⟩ := List.mem_map.mp he
    have hp2 : p ∈ sortDescByCount (counterItems (collectLanguages repos)) :=
      (List.take_sublist 10 _).subset hp
    obtain ⟨hmem, hcnt⟩ := counterItems_mem.mp (hperm.mem_iff.mp hp2)
    refine ⟨hcnt, ?_, ?_⟩
    · rw [hcnt]
      exact List.count_pos_iff.mpr hmem
    · show pyRound2 ((p.2 : ℚ) / (repos.length : ℚ) * 100) = _
      rw [hcnt]
  · rw [hdist, List.pairwise_map]
    exact List.Pairwise.sublist (List.take_sublist 10 _) hpair
  · rw [hdist, List.length_map, List.length_take, hperm.length_eq,
      counterItems_length]
  · intro name hname hnotin e he
    rw [hdist] at he
    obtain ⟨q, hq, rfl⟩ := List.mem_map.mp he
    have hpairn : (name, (collectLanguages repos).count name) ∈
        counterItems (collectLanguages repos) := counterItems_mem.mpr ⟨hname, rfl⟩
    have hin_sorted : (name, (collectLanguages repos).count name) ∈
        sortDescByCount (counterItems (collectLanguages repos)) :=
      hperm.mem_iff.mpr hpairn
    have hnot_take : (name, (collectLanguages repos).count name) ∉
        (sortDescByCount (counterItems (collectLanguages repos))).take 10 := by
      intro hmem
      apply hnotin
      rw [hdist, List.map_map]
      exact List.mem_map.mpr ⟨(name, (collectLanguages repos).count name), hmem, rfl⟩
    have hin_app : (name, (collectLanguages repos).count name) ∈
        (sortDescByCount (counterItems (collectLanguages repos))).take 10 ++
          (sortDescByCount (counterItems (collectLanguages repos))).drop 10 := by
      rw [List.take_append_drop]
      exact hin_sorted
    have hin_drop : (name, (collectLanguages repos).count name) ∈
        (sortDescByCount (counterItems (collectLanguages repos))).drop 10 := by
      rcases List.mem_append.mp hin_app with h | h
      · exact absurd h hnot_take
      · exact h
    have hpa : ((sortDescByCount (counterItems (collectLanguages repos))).take 10 ++
        (sortDescByCount (counterItems (collectLanguages repos))).drop 10).Pairwise
          (fun a b => b.2 ≤ a.2) := by
      rw [List.take_append_drop]
      exact hpair
    exact (List.pairwise_append.mp hpa).2.2 q hq _ hin_drop
  · have hmc : mostCommon 10 (collectLanguages exampleRepos) =
        [("Python".toList, 2), ("Go".toList, 1)] := by decide
    have h1 : pyRound2 ((200 : ℚ) / 3) = 6667 / 100 := by
      have hfl : ⌊(100 : ℚ) * ((200 : ℚ) / 3)⌋ = 6666 := by
        rw [Int.floor_eq_iff]
        norm_num
      unfold pyRound2
      rw [roundHalfEven_eq_of_gt hfl (by norm_num)]
      norm_num
    have h2 : pyRound2 ((100 : ℚ) / 3) = 3333 / 100 := by
      have hfl : ⌊(100 : ℚ) * ((100 : ℚ) / 3)⌋ = 3333 := by
        rw [Int.floor_eq_iff]
        norm_num
      unfold pyRound2
      rw [roundHalfEven_eq_of_lt hfl (by norm_num)]
      norm_num
    show (mostCommon 10 (collectLanguages exampleRepos)).map
        (fun p => (⟨p.1, p.2, pyRound2 ((p.2 : ℚ) / (exampleRepos.length : ℚ) * 100)⟩ :
          LanguageStats)) = _
    rw [hmc]
    simp only [List.map_cons, List.map_nil]
    have hlen : ((exampleRepos.length : ℕ) : ℚ) = 3 := by norm_num [exampleRepos]
    rw [hlen]
    norm_num
    exact ⟨h1, h2⟩

/-- Witness for C7 at the spec's example repositories. -/
theorem language_distribution_spec_witness :
    (⟨"Python".toList, 2, (6667 : ℚ) / 100⟩ : LanguageStats).count =
      (collectLanguages exampleRepos).count "Python".toList ∧
    (languageDistribution exampleRepos).length =
      min 10 (dedupFirst (collectLanguages exampleRepos)).length := by
  have h := language_distribution_spec exampleRepos
  have hmem : (⟨"Python".toList, 2, (6667 : ℚ) / 100⟩ : LanguageStats) ∈
      languageDistribution exampleRepos := by
    rw [h.2.2.2.2]
    exact List.mem_cons_self _ _
  exact ⟨((language_distribution_spec exampleRepos).1 _ hmem).1,
    (language_distribution_spec exampleRepos).2.2.1⟩

end GithubStarsMcp
